import Mathlib

/-!
Verification of the `space-cli` client (node/src/bin/space-cli.rs) of the
spaces repository.  The Rust source is shallowly embedded: strings are
sequences of Unicode scalar values (`List Nat`; every character the client
manipulates is ASCII, so these coincide with the UTF-8 bytes), machine
integers are `Nat` with explicit wrap/overflow conditions where the source
checks them, fallible operations return `Except`/`Option`, panics are an
explicit outcome, and the JSON-RPC transport together with the filesystem
is an oracle parameter so that theorems can quantify over every remote
behaviour while counting the outbound calls the client makes.
-/

/-- Rust `String`/`&str`, as the sequence of Unicode scalar values. -/
abbrev Str := List Nat

/-- Scalar values of a Lean string literal; used to write concrete inputs. -/
def strBytes (s : String) : Str := s.data.map Char.toNat

/-- `u8::to_ascii_lowercase`: maps the codes of A-Z (65-90) to a-z, leaves
every other scalar value unchanged. -/
def toAsciiLowerByte (c : Nat) : Nat :=
  if 65 ≤ c ∧ c ≤ 90 then c + 32 else c

/-- `str::to_ascii_lowercase`, character by character. -/
def toAsciiLowercase (s : Str) : Str := s.map toAsciiLowerByte

/-- `normalize_space` (space-cli.rs:310-317): lower-case the identifier and
prefix `'@'` (scalar 64) unless it is already the first character. -/
def normalize_space (space : Str) : Str :=
  let lowercase := toAsciiLowercase space
  if lowercase.head? = some 64 then lowercase else 64 :: lowercase

/-- Errors of the `hex` crate's `decode` (its `FromHexError`). -/
inductive FromHexError
  | InvalidHexCharacter (c : Nat) (index : Nat)
  | OddLength
  deriving DecidableEq, Repr

/-- Value of a hex digit character, `none` for non-hex characters. -/
def hexDigitVal (c : Nat) : Option Nat :=
  if 48 ≤ c ∧ c ≤ 57 then some (c - 48)
  else if 97 ≤ c ∧ c ≤ 102 then some (c - 87)
  else if 65 ≤ c ∧ c ≤ 70 then some (c - 55)
  else none

/-- Pair-at-a-time worker of `hex::decode`; `i` is the character index used
in `InvalidHexCharacter` reports. The input has even length (checked by
`hexDecode`), so the one-element case is unreachable and reports OddLength. -/
def hexDecodeAux : Str → Nat → Except FromHexError (List Nat)
  | [], _ => .ok []
  | [_], _ => .error .OddLength
  | hi :: lo :: rest, i =>
    match hexDigitVal hi with
    | none => .error (.InvalidHexCharacter hi i)
    | some h =>
      match hexDigitVal lo with
      | none => .error (.InvalidHexCharacter lo (i + 1))
      | some l =>
        match hexDecodeAux rest (i + 2) with
        | .error e => .error e
        | .ok bs => .ok ((16 * h + l) :: bs)

/-- `hex::decode`: odd-length input is rejected, otherwise each pair of hex
digits yields one byte; the first invalid character is reported with its
index. -/
def hexDecode (s : Str) : Except FromHexError (List Nat) :=
  if s.length % 2 ≠ 0 then .error .OddLength else hexDecodeAux s 0

/-- The lowercase hex digit character for a value below 16. -/
def hexDigitChar (n : Nat) : Nat := if n < 10 then 48 + n else 87 + n

/-- `hex::encode`: two lowercase hex digit characters per byte, high nibble
first (`b >> 4` and `b & 0xf` on a `u8`, hence the masks). -/
def hexEncode (bs : List Nat) : Str :=
  bs.flatMap (fun b => [hexDigitChar (b / 16 % 16), hexDigitChar (b % 16)])

/-- Rendering of `FromHexError` by its `Display` implementation, as carried
into the client's error message. -/
def renderHexError : FromHexError → Str
  | .InvalidHexCharacter c i =>
    strBytes "Invalid character " ++ [39, c, 39] ++ strBytes " at position "
      ++ strBytes (Nat.repr i)
  | .OddLength => strBytes "Odd number of digits"

/-- rust-bitcoin `FeeRate`: an amount in sat/kwu stored in a `u64`. -/
structure FeeRate where
  satKwu : Nat
  deriving DecidableEq, Repr

/-- `FeeRate::from_sat_per_vb`: `sat_vb.checked_mul(250)` on a `u64`, so it
is `none` exactly when the multiplication overflows 64 bits. -/
def FeeRate.fromSatPerVb (satVb : Nat) : Option FeeRate :=
  if satVb * 250 < 2 ^ 64 then some ⟨satVb * 250⟩ else none

/-! ### SHA-256 (FIPS 180-4)

`spaced::store::Sha256` (a `KeyHasher`) and the name encoding `SLabel` live
in the `spaced`/`protocol` crates of this repository, outside the file under
verification; the spec treats them as consumed pure primitives ("DNS encodes
the space and calculates the SHA-256 hash"), so they are modelled here from
that description. -/

/-- Truncation to a 32-bit word. -/
def w32 (x : Nat) : Nat := x % 2 ^ 32

/-- Right rotation of a 32-bit word by `n`. -/
def rotr (n x : Nat) : Nat := w32 ((x >>> n) ||| (x <<< (32 - n)))

/-- Bitwise complement of a 32-bit word. -/
def not32 (x : Nat) : Nat := x ^^^ (2 ^ 32 - 1)

/-- SHA-256 `Ch`. -/
def shaCh (x y z : Nat) : Nat := (x &&& y) ^^^ (not32 x &&& z)

/-- SHA-256 `Maj`. -/
def shaMaj (x y z : Nat) : Nat := (x &&& y) ^^^ (x &&& z) ^^^ (y &&& z)

/-- SHA-256 `Σ0`. -/
def bsig0 (x : Nat) : Nat := rotr 2 x ^^^ rotr 13 x ^^^ rotr 22 x

/-- SHA-256 `Σ1`. -/
def bsig1 (x : Nat) : Nat := rotr 6 x ^^^ rotr 11 x ^^^ rotr 25 x

/-- SHA-256 `σ0`. -/
def ssig0 (x : Nat) : Nat := rotr 7 x ^^^ rotr 18 x ^^^ (x >>> 3)

/-- SHA-256 `σ1`. -/
def ssig1 (x : Nat) : Nat := rotr 17 x ^^^ rotr 19 x ^^^ (x >>> 10)

/-- The 64 SHA-256 round constants. -/
def shaK : List Nat :=
  [1116352408, 1899447441, 3049323471, 3921009573, 961987163,
   1508970993, 2453635748, 2870763221, 3624381080, 310598401,
   607225278, 1426881987, 1925078388, 2162078206, 2614888103,
   3248222580, 3835390401, 4022224774, 264347078, 604807628,
   770255983, 1249150122, 1555081692, 1996064986, 2554220882,
   2821834349, 2952996808, 3210313671, 3336571891, 3584528711,
   113926993, 338241895, 666307205, 773529912, 1294757372,
   1396182291, 1695183700, 1986661051, 2177026350, 2456956037,
   2730485921, 2820302411, 3259730800, 3345764771, 3516065817,
   3600352804, 4094571909, 275423344, 430227734, 506948616,
   659060556, 883997877, 958139571, 1322822218, 1537002063,
   1747873779, 1955562222, 2024104815, 2227730452, 2361852424,
   2428436474, 2756734187, 3204031479, 3329325298]

/-- Initial SHA-256 hash state. -/
def shaH0 : List Nat :=
  [1779033703, 3144134277, 1013904242, 2773480762,
   1359893119, 2600822924, 528734635, 1541459225]

/-- Append the next message-schedule word (positions 16..63). -/
def scheduleStep (w : List Nat) : List Nat :=
  let n := w.length
  w ++ [w32 (ssig1 (w.getD (n - 2) 0) + w.getD (n - 7) 0
             + ssig0 (w.getD (n - 15) 0) + w.getD (n - 16) 0)]

/-- Iterate `scheduleStep` `k` times. -/
def buildSchedule (w : List Nat) : Nat → List Nat
  | 0 => w
  | k + 1 => buildSchedule (scheduleStep w) k

/-- One SHA-256 round on the eight-word working state. -/
def compressStep (kw : Nat × Nat) (s : List Nat) : List Nat :=
  match s with
  | [a, b, c, d, e, f, g, h] =>
    let t1 := w32 (h + bsig1 e + shaCh e f g + kw.1 + kw.2)
    let t2 := w32 (bsig0 a + shaMaj a b c)
    [w32 (t1 + t2), a, b, c, w32 (d + t1), e, f, g]
  | s => s

/-- SHA-256 compression of one 16-word block into the chaining state. -/
def compressBlock (h : List Nat) (block : List Nat) : List Nat :=
  let ws := buildSchedule block 48
  let s := (shaK.zip ws).foldl (fun st kw => compressStep kw st) h
  (h.zip s).map fun p => w32 (p.1 + p.2)

/-- `k` bytes of `n`, big-endian. -/
def beBytes : Nat → Nat → List Nat
  | 0, _ => []
  | k + 1, n => beBytes k (n / 256) ++ [n % 256]

/-- SHA-256 padding: `0x80`, zeros to 56 mod 64, 8-byte bit length. -/
def sha256pad (msg : List Nat) : List Nat :=
  msg ++ [128] ++ List.replicate ((64 - (msg.length + 9) % 64) % 64) 0
      ++ beBytes 8 (msg.length * 8)

/-- Big-endian 4-byte groups to 32-bit words. -/
def bytesToWords : List Nat → List Nat
  | b0 :: b1 :: b2 :: b3 :: rest =>
    (((b0 * 256 + b1) * 256 + b2) * 256 + b3) :: bytesToWords rest
  | _ => []

/-- Split a word list into 16-word blocks. -/
def chunks16 (ws : List Nat) : List (List Nat) :=
  if h : ws = [] then [] else ws.take 16 :: chunks16 (ws.drop 16)
termination_by ws.length
decreasing_by cases ws with
  | nil => exact absurd rfl h
  | cons a t => simp [List.length_drop]; omega

/-- Modelled from the spec: `spaced::store::Sha256::hash` (not under `src/`),
the SHA-256 digest of a byte sequence per FIPS 180-4, 32 output bytes. -/
def Sha256.hash (msg : List Nat) : List Nat :=
  ((chunks16 (bytesToWords (sha256pad msg))).foldl compressBlock shaH0).flatMap
    (beBytes 4)

/-- Bytes allowed in a space label: `a`-`z`, `0`-`9` and `-`. -/
def isLabelByte (c : Nat) : Bool :=
  decide ((97 ≤ c ∧ c ≤ 122) ∨ (48 ≤ c ∧ c ≤ 57) ∨ c = 45)

/-- Modelled from the spec: `protocol::slabel::SLabel::from_str` followed by
`as_ref` (not under `src/`). A well-formed space name is `@` followed by a
non-empty label of at most 62 allowed bytes, and its encoded (DNS-style)
form is the label length byte followed by the label bytes. -/
def SLabel.fromStr (s : Str) : Except Str (List Nat) :=
  match s with
  | 64 :: label =>
    if label.length = 0 then .error (strBytes "empty space name")
    else if 62 < label.length then .error (strBytes "space name too long")
    else if label.all isLabelByte then .ok (label.length :: label)
    else .error (strBytes "invalid space name character")
  | _ => .error (strBytes "missing @ prefix")

/-- `hash_space` (space-cli.rs:384-388): normalize, parse as `SLabel`, and
return the hex encoding of the SHA-256 digest of the encoded name. -/
def hash_space (spaceish : Str) : Except Str Str :=
  match SLabel.fromStr (normalize_space spaceish) with
  | .error e => .error e
  | .ok sname => .ok (hexEncode (Sha256.hash sname))

/-! ### Operation vocabulary and the wallet request (spaced::rpc types) -/

/-- `OpenParams`. -/
structure OpenParams where
  name : Str
  amount : Nat
  deriving DecidableEq, Repr

/-- `BidParams`. -/
structure BidParams where
  name : Str
  amount : Nat
  deriving DecidableEq, Repr

/-- `RegisterParams`. -/
structure RegisterParams where
  name : Str
  «to» : Option Str
  deriving DecidableEq, Repr

/-- `TransferSpacesParams`. -/
structure TransferSpacesParams where
  spaces : List Str
  «to» : Str
  deriving DecidableEq, Repr

/-- `SendCoinsParams` (`amount` is a rust-bitcoin `Amount` in sats). -/
structure SendCoinsParams where
  amount : Nat
  «to» : Str
  deriving DecidableEq, Repr

/-- `protocol::script::SpaceScript`. The constructor
`create_set_fallback` is modelled from the spec: a script-construction
helper (not under `src/`) producing an opaque payload that wraps the given
bytes. -/
inductive SpaceScript
  | createSetFallback (data : List Nat)
  deriving DecidableEq, Repr

/-- `ExecuteParams`. -/
structure ExecuteParams where
  context : List Str
  space_script : SpaceScript
  deriving DecidableEq, Repr

/-- `RpcWalletRequest`: the closed operation vocabulary. -/
inductive RpcWalletRequest
  | Open (p : OpenParams)
  | Bid (p : BidParams)
  | Register (p : RegisterParams)
  | Transfer (p : TransferSpacesParams)
  | SendCoins (p : SendCoinsParams)
  | Execute (p : ExecuteParams)
  deriving DecidableEq, Repr

/-- `RpcWalletTxBuilder`: the composed transaction-construction request. -/
structure RpcWalletTxBuilder where
  bidouts : Option Nat
  requests : List RpcWalletRequest
  fee_rate : Option FeeRate
  dust : Option Nat
  force : Bool
  confirmed_only : Bool
  skip_tx_check : Bool
  deriving DecidableEq, Repr

/-- `wallet::export::WalletExport`, an opaque imported document. -/
structure WalletExport where
  content : Str
  deriving DecidableEq, Repr

/-- `spaced::wallets::AddressKind`. -/
inductive AddressKind
  | Coin
  | Space
  deriving DecidableEq, Repr

/-- One outbound JSON-RPC call: an `RpcClient` method with its arguments.
The trace of these is the observable network behaviour of a command. -/
inductive TransportCall
  | walletSendRequest (wallet : Str) (builder : RpcWalletTxBuilder)
  | getRollout (target : Nat)
  | estimateBid (target : Nat)
  | getSpace (spaceHash : Str)
  | getSpaceout (outpoint : Str)
  | walletCreate (wallet : Str)
  | walletLoad (wallet : Str)
  | walletImport (w : WalletExport)
  | walletExport (wallet : Str)
  | walletGetInfo (wallet : Str)
  | getServerInfo
  | walletListUnspent (wallet : Str)
  | walletListBidouts (wallet : Str)
  | walletListTransactions (wallet : Str) (count : Nat) (skip : Nat)
  | walletListSpaces (wallet : Str)
  | walletGetBalance (wallet : Str)
  | walletGetNewAddress (wallet : Str) (kind : AddressKind)
  | walletBumpFee (wallet : Str) (txid : Str) (feeRate : FeeRate)
      (skipTxCheck : Bool)
  | walletForceSpend (wallet : Str) (outpoint : Str) (feeRate : FeeRate)
  deriving DecidableEq, Repr

/-- jsonrpsee's `ClientError` (`core::client::Error`), the error type every
command returns through. -/
inductive ClientError
  | Call (code : Int) (message : Str)
  | Transport (msg : Str)
  | RestartNeeded (msg : Str)
  | ParseError (msg : Str)
  | InvalidSubscriptionId
  | InvalidRequestId (msg : Str)
  | RequestTimeout
  | MaxSlotsExceeded
  | Custom (msg : Str)
  | HttpNotImplemented
  | EmptyBatchRequest (msg : Str)
  | RegisterMethod (msg : Str)
  deriving DecidableEq, Repr

/-- How one invocation of the client ends: normally, with a `ClientError`,
or by a Rust panic (the `unwrap`/`expect` calls in the source). -/
inductive Outcome
  | ok
  | err (e : ClientError)
  | panic (msg : Str)
  deriving DecidableEq, Repr

/-- Observable behaviour of one command: how it ended, the outbound
network calls in order, and the lines printed to standard output (decoded
responses are carried opaquely, so a printed response is the response
string itself). -/
structure RunResult where
  outcome : Outcome
  calls : List TransportCall
  output : List Str
  deriving DecidableEq, Repr

/-- The environment a command runs against: the remote endpoint's answer to
each call (decoded responses are opaque strings), and the filesystem and
JSON-parsing effects used by wallet export/import. -/
structure Env where
  remote : TransportCall → Except ClientError Str
  fsRead : Str → Except Str Str
  fsWrite : Str → Str → Except Str Unit
  parseWallet : Str → Except Str WalletExport

/-- `SpaceCli` (space-cli.rs:243-251): process-scoped configuration. The
HTTP client handle is replaced by the `Env` oracle. -/
structure SpaceCli where
  wallet : Str
  dust : Option Nat
  force : Bool
  skip_tx_check : Bool
  network : Str
  rpc_url : Str
  deriving DecidableEq, Repr

/-- The `Commands` subcommand vocabulary (space-cli.rs:52-241). Paths,
txids and outpoints are carried as opaque strings. -/
inductive Commands
  | CreateWallet
  | LoadWallet
  | ExportWallet (path : Str)
  | ImportWallet (path : Str)
  | GetWalletInfo
  | GetServerInfo
  | Open (space : Str) (initial_bid : Nat) (fee_rate : Option Nat)
  | Bid (space : Str) (amount : Nat) (fee_rate : Option Nat)
      (confirmed_only : Bool)
  | Register (space : Str) (address : Option Str) (fee_rate : Option Nat)
  | GetSpace (space : Str)
  | Transfer (spaces : List Str) («to» : Str) (fee_rate : Option Nat)
  | EstimateBid (target : Nat)
  | SendCoins (amount : Nat) («to» : Str) (fee_rate : Option Nat)
  | Balance
  | CreateBidOuts (pairs : Nat) (fee_rate : Option Nat)
  | BumpFee (txid : Str) (fee_rate : Nat)
  | GetSpaceOut (outpoint : Str)
  | GetRollout (target_interval : Nat)
  | SetRawFallback (space : Str) (data : Str) (fee_rate : Option Nat)
  | ListTransactions (count : Nat) (skip : Nat)
  | ListSpaces
  | ListBidOuts
  | ListUnspent
  | GetSpaceAddress
  | GetCoinAddress
  | ForceSpend (outpoint : Str) (fee_rate : Nat)
  | HashSpace (space : Str)
  deriving DecidableEq, Repr

/-- The fee-rate conversion at the top of `send_request` (space-cli.rs:282):
`fee_rate.map(|fee| FeeRate::from_sat_per_vb(fee).unwrap())`; the `unwrap`
panics when the conversion overflows. -/
def convFeeRate : Option Nat → Except Str (Option FeeRate)
  | none => .ok none
  | some f =>
    match FeeRate.fromSatPerVb f with
    | some fr => .ok (some fr)
    | none => .error (strBytes "called `Option::unwrap()` on a `None` value")

/-- A round trip whose decoded response is pretty-printed, shared by the
read-only queries and by the submission in `send_request`. -/
def query (env : Env) (call : TransportCall) : RunResult :=
  match env.remote call with
  | .error e => ⟨.err e, [call], []⟩
  | .ok r => ⟨.ok, [call], [r]⟩

/-- `SpaceCli::send_request` (space-cli.rs:275-307): convert the fee rate,
compose the one `RpcWalletTxBuilder`, submit it in a single
`wallet_send_request` call, and print the decoded result. -/
def send_request (cli : SpaceCli) (env : Env) (req : Option RpcWalletRequest)
    (bidouts : Option Nat) (fee_rate : Option Nat) (confirmed_only : Bool) :
    RunResult :=
  match convFeeRate fee_rate with
  | .error m => ⟨.panic m, [], []⟩
  | .ok fr =>
    query env (.walletSendRequest cli.wallet
      { bidouts := bidouts
        requests := match req with | none => [] | some r => [r]
        fee_rate := fr
        dust := cli.dust
        force := cli.force
        confirmed_only := confirmed_only
        skip_tx_check := cli.skip_tx_check })

/-- A round trip whose response is not printed (wallet create/load/import). -/
def querySilent (env : Env) (call : TransportCall) : RunResult :=
  match env.remote call with
  | .error e => ⟨.err e, [call], []⟩
  | .ok _ => ⟨.ok, [call], []⟩

/-- `handle_commands` (space-cli.rs:390-620): dispatch one parsed command to
exactly one builder call, read-only call, or pure local computation. -/
def handle_commands (cli : SpaceCli) (env : Env) : Commands → RunResult
  | .GetRollout target => query env (.getRollout target)
  | .EstimateBid target =>
    match env.remote (.estimateBid target) with
    | .error e => ⟨.err e, [.estimateBid target], []⟩
    | .ok r => ⟨.ok, [.estimateBid target], [r ++ strBytes " sat"]⟩
  | .GetSpace space =>
    match hash_space space with
    | .error e => ⟨.err (.Custom e), [], []⟩
    | .ok space_hash => query env (.getSpace space_hash)
  | .GetSpaceOut outpoint => query env (.getSpaceout outpoint)
  | .CreateWallet => querySilent env (.walletCreate cli.wallet)
  | .LoadWallet => querySilent env (.walletLoad cli.wallet)
  | .ImportWallet path =>
    match env.fsRead path with
    | .error e => ⟨.err (.Custom e), [], []⟩
    | .ok content =>
      match env.parseWallet content with
      | .error e => ⟨.err (.ParseError e), [], []⟩
      | .ok w => querySilent env (.walletImport w)
  | .ExportWallet path =>
    match env.remote (.walletExport cli.wallet) with
    | .error e => ⟨.err e, [.walletExport cli.wallet], []⟩
    | .ok content =>
      match env.fsWrite path content with
      | .error e =>
        ⟨.err (.Custom (strBytes "Could not save to path: " ++ e)),
          [.walletExport cli.wallet], []⟩
      | .ok _ => ⟨.ok, [.walletExport cli.wallet], []⟩
  | .GetWalletInfo => query env (.walletGetInfo cli.wallet)
  | .GetServerInfo => query env .getServerInfo
  | .Open space initial_bid fee_rate =>
    send_request cli env
      (some (.Open { name := normalize_space space, amount := initial_bid }))
      none fee_rate false
  | .Bid space amount fee_rate confirmed_only =>
    send_request cli env
      (some (.Bid { name := normalize_space space, amount := amount }))
      none fee_rate confirmed_only
  | .CreateBidOuts pairs fee_rate =>
    send_request cli env none (some pairs) fee_rate false
  | .Register space address fee_rate =>
    send_request cli env
      (some (.Register { name := normalize_space space, «to» := address }))
      none fee_rate false
  | .Transfer spaces dest fee_rate =>
    send_request cli env
      (some (.Transfer { spaces := spaces.map (fun s => normalize_space s),
                         «to» := dest }))
      none fee_rate false
  | .SendCoins amount dest fee_rate =>
    send_request cli env
      (some (.SendCoins { amount := amount, «to» := dest }))
      none fee_rate false
  | .SetRawFallback space data fee_rate =>
    match hexDecode data with
    | .error e =>
      ⟨.err (.Custom (strBytes "Could not hex decode data: "
          ++ renderHexError e)), [], []⟩
    | .ok bytes =>
      send_request cli env
        (some (.Execute { context := [normalize_space space],
                          space_script := .createSetFallback bytes }))
        none fee_rate false
  | .ListUnspent => query env (.walletListUnspent cli.wallet)
  | .ListBidOuts => query env (.walletListBidouts cli.wallet)
  | .ListTransactions count skip =>
    query env (.walletListTransactions cli.wallet count skip)
  | .ListSpaces => query env (.walletListSpaces cli.wallet)
  | .Balance => query env (.walletGetBalance cli.wallet)
  | .GetCoinAddress => query env (.walletGetNewAddress cli.wallet .Coin)
  | .GetSpaceAddress => query env (.walletGetNewAddress cli.wallet .Space)
  | .BumpFee txid fee_rate =>
    match FeeRate.fromSatPerVb fee_rate with
    | none => ⟨.panic (strBytes "valid fee rate"), [], []⟩
    | some fr =>
      query env (.walletBumpFee cli.wallet txid fr cli.skip_tx_check)
  | .ForceSpend outpoint fee_rate =>
    match FeeRate.fromSatPerVb fee_rate with
    | none =>
      ⟨.panic (strBytes "called `Option::unwrap()` on a `None` value"), [], []⟩
    | some fr => query env (.walletForceSpend cli.wallet outpoint fr)
  | .HashSpace space =>
    match hash_space space with
    | .error e => ⟨.err (.Custom e), [], []⟩
    | .ok h => ⟨.ok, [], [h]⟩

/-- The spec's `ReportableError` categories, one per arm of the `match` over
`ClientError` in `main` (space-cli.rs:330-380). `Error::Call` is the
structured application-level rejection (`RpcError { code, message }`),
`Error::Custom` is the locally-detected validation failure, and the arms the
spec does not name keep their printed form. -/
inductive ReportableError
  | RemoteRejected (code : Int) (message : Str)
  | Transport (detail : Str)
  | RestartNeeded (detail : Str)
  | ProtocolDecode (detail : Str)
  | SubscriptionInvalid
  | InvalidRequestId (detail : Str)
  | RequestTimeout
  | CapacityExceeded
  | LocalValidation (detail : Str)
  | HttpNotImplemented
  | EmptyBatchRequest (detail : Str)
  | RegisterMethod (detail : Str)
  deriving DecidableEq, Repr

/-- The Error Classifier: the exhaustive `match` in `main`
(space-cli.rs:330-380) that turns every `ClientError` into exactly one
reported category; the transport arm includes the configured endpoint and
network as printed by the source. -/
def classify (cli : SpaceCli) : ClientError → ReportableError
  | .Call code message => .RemoteRejected code message
  | .Transport msg =>
    .Transport (strBytes "Transport error: " ++ msg ++ strBytes ": Rpc url: "
      ++ cli.rpc_url ++ strBytes " (network: " ++ cli.network ++ strBytes ")")
  | .RestartNeeded msg => .RestartNeeded msg
  | .ParseError msg => .ProtocolDecode msg
  | .InvalidSubscriptionId => .SubscriptionInvalid
  | .InvalidRequestId msg => .InvalidRequestId msg
  | .RequestTimeout => .RequestTimeout
  | .MaxSlotsExceeded => .CapacityExceeded
  | .Custom msg => .LocalValidation msg
  | .HttpNotImplemented => .HttpNotImplemented
  | .EmptyBatchRequest msg => .EmptyBatchRequest msg
  | .RegisterMethod msg => .RegisterMethod msg

/-- How one whole invocation of the client terminates, as seen by the user. -/
inductive MainResult
  | success
  | reported (r : ReportableError)
  | panicked (msg : Str)
  deriving DecidableEq, Repr

/-- `main` (space-cli.rs:325-382) after configuration: run the command and
push any `ClientError` through the classifier; a panic escapes both. -/
def mainRun (cli : SpaceCli) (env : Env) (cmd : Commands) : MainResult :=
  match (handle_commands cli env cmd).outcome with
  | .ok => .success
  | .err e => .reported (classify cli e)
  | .panic m => .panicked m

/-! ### Concrete fixtures for closed counterexamples and witnesses -/

/-- A concrete client configuration. -/
def cliFixture : SpaceCli :=
  { wallet := strBytes "default"
    dust := none
    force := false
    skip_tx_check := false
    network := strBytes "mainnet"
    rpc_url := strBytes "http://127.0.0.1:7225" }

/-- An environment whose remote accepts every call with an empty response
and whose filesystem oracles are trivial. -/
def envFixture : Env :=
  { remote := fun _ => .ok []
    fsRead := fun _ => .error []
    fsWrite := fun _ _ => .ok ()
    parseWallet := fun _ => .error [] }

/-- The fee-rate values whose conversion in `send_request` does not panic:
absent, or small enough that `checked_mul(250)` fits a `u64`. -/
def feeConvOk : Option Nat → Bool
  | none => true
  | some f => decide (f * 250 < 2 ^ 64)

/-- The converted fee rate attached to the builder (meaningful under
`feeConvOk`). -/
def feeConvVal : Option Nat → Option FeeRate
  | none => none
  | some f => some ⟨f * 250⟩

/-- An identifier already in normalized form (a fixed point of
`normalize_space`: lower-cased and starting with `@`). -/
def isNormalizedName (s : Str) : Prop := normalize_space s = s

/-- The space-name fields of an operation are all normalized. Destination
fields (`Register.to`, `Transfer.to`, `SendCoins.to`) carry addresses or
names verbatim and are not covered. -/
def requestNamesNormalized : RpcWalletRequest → Prop
  | .Open p => isNormalizedName p.name
  | .Bid p => isNormalizedName p.name
  | .Register p => isNormalizedName p.name
  | .Transfer p => ∀ n ∈ p.spaces, isNormalizedName n
  | .SendCoins _ => True
  | .Execute p => ∀ n ∈ p.context, isNormalizedName n

/-- Every operation inside a submitted builder has normalized name fields;
calls other than `wallet_send_request` carry no operations. -/
def callNamesNormalized : TransportCall → Prop
  | .walletSendRequest _ b => ∀ r ∈ b.requests, requestNamesNormalized r
  | _ => True

/-- A scalar value that is a lowercase hex digit character (0-9, a-f). -/
def isLowerHexDigit (c : Nat) : Prop := (48 ≤ c ∧ c ≤ 57) ∨ (97 ≤ c ∧ c ≤ 102)

/-! ### Helper lemmas -/

theorem toAsciiLowerByte_idem (c : Nat) :
    toAsciiLowerByte (toAsciiLowerByte c) = toAsciiLowerByte c := by
  by_cases h : 65 ≤ c ∧ c ≤ 90
  · have h1 : toAsciiLowerByte c = c + 32 := by simp [toAsciiLowerByte, h]
    have h2 : ¬(65 ≤ c + 32 ∧ c + 32 ≤ 90) := by omega
    rw [h1]
    simp [toAsciiLowerByte, h2]
    omega
  · have h1 : toAsciiLowerByte c = c := by simp [toAsciiLowerByte, h]
    rw [h1]
    exact h1

theorem toAsciiLowercase_idem (s : Str) :
    toAsciiLowercase (toAsciiLowercase s) = toAsciiLowercase s := by
  simp [toAsciiLowercase, List.map_map, Function.comp_def, toAsciiLowerByte_idem]

theorem normalize_space_head (s : Str) :
    (normalize_space s).head? = some 64 := by
  show (if (toAsciiLowercase s).head? = some 64 then toAsciiLowercase s
    else 64 :: toAsciiLowercase s).head? = some 64
  split
  · assumption
  · rfl

theorem normalize_space_lower (s : Str) :
    toAsciiLowercase (normalize_space s) = normalize_space s := by
  show toAsciiLowercase (if (toAsciiLowercase s).head? = some 64
      then toAsciiLowercase s else 64 :: toAsciiLowercase s)
    = (if (toAsciiLowercase s).head? = some 64
      then toAsciiLowercase s else 64 :: toAsciiLowercase s)
  split
  · exact toAsciiLowercase_idem s
  · show toAsciiLowerByte 64 :: toAsciiLowercase (toAsciiLowercase s)
      = 64 :: toAsciiLowercase s
    rw [toAsciiLowercase_idem]
    rfl

theorem normalize_space_idem (s : Str) :
    normalize_space (normalize_space s) = normalize_space s := by
  show (if (toAsciiLowercase (normalize_space s)).head? = some 64
      then toAsciiLowercase (normalize_space s)
      else 64 :: toAsciiLowercase (normalize_space s)) = normalize_space s
  rw [normalize_space_lower, if_pos (normalize_space_head s)]

theorem query_calls (env : Env) (call : TransportCall) :
    (query env call).calls = [call] := by
  unfold query; split <;> rfl

theorem querySilent_calls (env : Env) (call : TransportCall) :
    (querySilent env call).calls = [call] := by
  unfold querySilent; split <;> rfl

theorem convFeeRate_ok (f : Option Nat) (h : feeConvOk f = true) :
    convFeeRate f = .ok (feeConvVal f) := by
  cases f with
  | none => rfl
  | some v =>
    simp [feeConvOk] at h
    simp [convFeeRate, FeeRate.fromSatPerVb, h, feeConvVal]

theorem send_request_calls (cli : SpaceCli) (env : Env)
    (req : Option RpcWalletRequest) (b : Option Nat) (f : Option Nat)
    (co : Bool) (h : feeConvOk f = true) :
    (send_request cli env req b f co).calls
      = [.walletSendRequest cli.wallet
          { bidouts := b, requests := req.toList, fee_rate := feeConvVal f,
            dust := cli.dust, force := cli.force, confirmed_only := co,
            skip_tx_check := cli.skip_tx_check }] := by
  cases req <;>
    (unfold send_request; rw [convFeeRate_ok f h]; exact query_calls env _)

theorem send_request_calls_mem {cli : SpaceCli} {env : Env}
    {req : Option RpcWalletRequest} {b : Option Nat} {f : Option Nat}
    {co : Bool} {call : TransportCall}
    (h : call ∈ (send_request cli env req b f co).calls) :
    ∃ fr, call = .walletSendRequest cli.wallet
      { bidouts := b, requests := req.toList, fee_rate := fr,
        dust := cli.dust, force := cli.force, confirmed_only := co,
        skip_tx_check := cli.skip_tx_check } := by
  unfold send_request at h
  cases hc : convFeeRate f with
  | error m => rw [hc] at h; simp at h
  | ok fr =>
    rw [hc] at h
    refine ⟨fr, ?_⟩
    cases req with
    | none =>
      have h2 : call ∈ (query env (.walletSendRequest cli.wallet
        { bidouts := b, requests := [], fee_rate := fr,
          dust := cli.dust, force := cli.force, confirmed_only := co,
          skip_tx_check := cli.skip_tx_check })).calls := h
      rw [query_calls] at h2
      simpa using h2
    | some r =>
      have h2 : call ∈ (query env (.walletSendRequest cli.wallet
        { bidouts := b, requests := [r], fee_rate := fr,
          dust := cli.dust, force := cli.force, confirmed_only := co,
          skip_tx_check := cli.skip_tx_check })).calls := h
      rw [query_calls] at h2
      simpa using h2

theorem hexDigitChar_lower (n : Nat) (h : n < 16) :
    isLowerHexDigit (hexDigitChar n) := by
  unfold hexDigitChar isLowerHexDigit
  split <;> omega

theorem hexEncode_lower (bs : List Nat) :
    ∀ c ∈ hexEncode bs, isLowerHexDigit c := by
  induction bs with
  | nil => intro c hc; simp [hexEncode] at hc
  | cons b rest ih =>
    intro c hc
    simp only [hexEncode, List.flatMap_cons, List.mem_append] at hc
    rcases hc with hc | hc
    · simp only [List.mem_cons, List.mem_singleton] at hc
      rcases hc with rfl | rfl | hc
      · exact hexDigitChar_lower _ (Nat.mod_lt _ (by omega))
      · exact hexDigitChar_lower _ (Nat.mod_lt _ (by omega))
      · simp at hc
    · exact ih c hc

/-- Claim C1, counterexample: invoked with no operation and no bidout count,
`send_request` does not fail with a LocalValidation error and does not
perform zero network calls — against an accepting remote it succeeds after
exactly one outbound submission. -/
theorem send_request_absent_both_counterexample :
    (send_request cliFixture envFixture none none none false).calls.length = 1
    ∧ (send_request cliFixture envFixture none none none false).outcome
        = .ok := by
  constructor <;> rfl

/-- Claim C1 (amended): `send_request` with operation and bidout count both
absent performs no local validation: for every configuration and every
remote it issues exactly one submission whose builder carries an empty
operations list and an absent bidout count. -/
theorem send_request_absent_both_sends_one (cli : SpaceCli) (env : Env)
    (co : Bool) :
    (send_request cli env none none none co).calls
      = [.walletSendRequest cli.wallet
          { bidouts := none, requests := [], fee_rate := none,
            dust := cli.dust, force := cli.force, confirmed_only := co,
            skip_tx_check := cli.skip_tx_check }] :=
  send_request_calls cli env none none none co rfl

/-- Claim C2, counterexample: a present fee rate of 0 is not rejected
locally — the builder converts it to a zero `FeeRate` and transmits the
request; against an accepting remote the call succeeds after one outbound
submission. -/
theorem send_request_zero_fee_counterexample :
    (send_request cliFixture envFixture
        (some (.Open { name := strBytes "@foo", amount := 1000 }))
        none (some 0) false).calls.length = 1
    ∧ (send_request cliFixture envFixture
        (some (.Open { name := strBytes "@foo", amount := 1000 }))
        none (some 0) false).outcome = .ok := by
  constructor <;> rfl

/-- Claim C2 (amended): a present fee rate of 0 passes the local conversion
(`FeeRate::from_sat_per_vb(0)` succeeds) and is transmitted verbatim as the
zero fee rate in exactly one submission; non-numeric fee-rate strings never
reach `send_request`, being rejected by the argument parser. -/
theorem send_request_zero_fee_transmitted (cli : SpaceCli) (env : Env)
    (req : Option RpcWalletRequest) (b : Option Nat) (co : Bool) :
    (send_request cli env req b (some 0) co).calls
      = [.walletSendRequest cli.wallet
          { bidouts := b, requests := req.toList, fee_rate := some ⟨0⟩,
            dust := cli.dust, force := cli.force, confirmed_only := co,
            skip_tx_check := cli.skip_tx_check }] :=
  send_request_calls cli env req b (some 0) co (by decide)

/-- Claim C3, counterexample: classification is not total over all failure
paths — `bumpfee` with a fee rate whose conversion overflows terminates by
panic (`expect("valid fee rate")`), never reaching the classifier. -/
theorem bumpfee_overflow_panics :
    mainRun cliFixture envFixture
        (.BumpFee (strBytes "ab") 73786976294838207)
      = .panicked (strBytes "valid fee rate") := by
  decide

/-- Claim C3 (amended): every failure that surfaces as a `ClientError` is
mapped by the exhaustive classifier in `main` to exactly one
`ReportableError`; only the fee-rate conversion panics escape it. -/
theorem client_error_classified_total (cli : SpaceCli) (env : Env)
    (cmd : Commands) (e : ClientError) (cs : List TransportCall)
    (os : List Str)
    (h : handle_commands cli env cmd = ⟨.err e, cs, os⟩) :
    mainRun cli env cmd = .reported (classify cli e) := by
  unfold mainRun
  rw [h]

/-- Claim C3 witness: a concrete failing run (bad hex payload) is reported
through the classifier as exactly one category. -/
theorem client_error_classified_total_witness :
    mainRun cliFixture envFixture
        (.SetRawFallback (strBytes "foo") (strBytes "zz") none)
      = .reported (classify cliFixture (.Custom
          (strBytes "Could not hex decode data: Invalid character 'z' at position 0"))) :=
  client_error_classified_total cliFixture envFixture _ _ [] [] (by decide)

/-- Claim C4: `normalize_space` is idempotent and its result always starts
with the reserved sigil `@` (scalar value 64). -/
theorem normalize_space_spec (s : Str) :
    normalize_space (normalize_space s) = normalize_space s
    ∧ (normalize_space s).head? = some 64 :=
  ⟨normalize_space_idem s, normalize_space_head s⟩

/-- Claim C6: a well-formed application-level rejection with numeric code 64
and message "insufficient funds" is classified as exactly
`RemoteRejected(64, "insufficient funds")` (the classifier is a function,
so no other category can be produced). -/
theorem classify_insufficient_funds (cli : SpaceCli) :
    classify cli (.Call 64 (strBytes "insufficient funds"))
      = .RemoteRejected 64 (strBytes "insufficient funds") := rfl

/-- Claim C8: `open foo 1000 --fee-rate 5` resolves the identifier to
`@foo` and issues exactly one submission whose builder carries exactly the
operation `Open { name := "@foo", amount := 1000 }` and the 5 sat/vB fee
rate. -/
theorem open_foo_scenario (cli : SpaceCli) (env : Env) :
    (handle_commands cli env (.Open (strBytes "foo") 1000 (some 5))).calls
      = [.walletSendRequest cli.wallet
          { bidouts := none,
            requests := [.Open { name := strBytes "@foo", amount := 1000 }],
            fee_rate := FeeRate.fromSatPerVb 5,
            dust := cli.dust, force := cli.force, confirmed_only := false,
            skip_tx_check := cli.skip_tx_check }] := by
  show (send_request cli env
      (some (.Open { name := normalize_space (strBytes "foo"),
                     amount := 1000 })) none (some 5) false).calls = _
  rw [send_request_calls cli env _ none (some 5) false (by decide)]
  simp only [show normalize_space (strBytes "foo") = strBytes "@foo" from
    by decide]
  rfl

/-- Claim C10: `createbidouts 0` performs no local validation and issues
exactly one submission whose operations list is empty and whose bidout
count is `Some 0`, transmitted verbatim. -/
theorem createbidouts_zero (cli : SpaceCli) (env : Env) (fr : Option Nat)
    (h : feeConvOk fr = true) :
    (handle_commands cli env (.CreateBidOuts 0 fr)).calls
      = [.walletSendRequest cli.wallet
          { bidouts := some 0, requests := [], fee_rate := feeConvVal fr,
            dust := cli.dust, force := cli.force, confirmed_only := false,
            skip_tx_check := cli.skip_tx_check }] := by
  show (send_request cli env none (some 0) fr false).calls = _
  rw [send_request_calls cli env none (some 0) fr false h]
  rfl

/-- Claim C10 witness: the concrete `createbidouts 0` run with no fee rate
submits `bidouts = Some 0` with an empty operations list. -/
theorem createbidouts_zero_witness :
    (handle_commands cliFixture envFixture (.CreateBidOuts 0 none)).calls
      = [.walletSendRequest (strBytes "default")
          { bidouts := some 0, requests := [], fee_rate := none,
            dust := none, force := false, confirmed_only := false,
            skip_tx_check := false }] :=
  createbidouts_zero cliFixture envFixture none rfl

theorem query_mem {env : Env} {c call : TransportCall}
    (h : call ∈ (query env c).calls) : call = c := by
  rw [query_calls] at h
  simpa using h

theorem querySilent_mem {env : Env} {c call : TransportCall}
    (h : call ∈ (querySilent env c).calls) : call = c := by
  rw [querySilent_calls] at h
  simpa using h

/-- Claim C5, counterexample: `transfer foo --to BAR` normalizes the names
list but places the space-name destination `BAR` in the operation verbatim,
un-normalized. -/
theorem transfer_destination_not_normalized :
    (handle_commands cliFixture envFixture
        (.Transfer [strBytes "foo"] (strBytes "BAR") none)).calls
      = [.walletSendRequest (strBytes "default")
          { bidouts := none,
            requests := [.Transfer
              { spaces := [strBytes "@foo"], «to» := strBytes "BAR" }],
            fee_rate := none, dust := none, force := false,
            confirmed_only := false, skip_tx_check := false }]
    ∧ normalize_space (strBytes "BAR") ≠ strBytes "BAR" := by
  constructor
  · rfl
  · decide

/-- Claim C5 (amended): every space-NAME field of every operation entering a
submitted builder (`Open`/`Bid`/`Register` names, `Transfer`'s names list,
`Execute`'s context) is normalized, and `send_request` passes the operation
it is given into the transmitted builder verbatim (it never re-normalizes);
destination fields (`Register`/`Transfer`/`SendCoins` `to`) are carried
verbatim and are not normalized. -/
theorem operation_names_normalized :
    (∀ (cli : SpaceCli) (env : Env) (cmd : Commands) (call : TransportCall),
       call ∈ (handle_commands cli env cmd).calls → callNamesNormalized call)
    ∧ (∀ (cli : SpaceCli) (env : Env) (r : RpcWalletRequest)
         (b f : Option Nat) (co : Bool) (call : TransportCall),
       call ∈ (send_request cli env (some r) b f co).calls →
       ∃ fr, call = .walletSendRequest cli.wallet
         { bidouts := b, requests := [r], fee_rate := fr, dust := cli.dust,
           force := cli.force, confirmed_only := co,
           skip_tx_check := cli.skip_tx_check }) := by
  constructor
  · intro cli env cmd call hc
    cases cmd with
    | CreateWallet => rw [querySilent_mem hc]; trivial
    | LoadWallet => rw [querySilent_mem hc]; trivial
    | ExportWallet p =>
      simp only [handle_commands] at hc
      split at hc
      · simp at hc; subst hc; trivial
      · split at hc
        · simp at hc; subst hc; trivial
        · simp at hc; subst hc; trivial
    | ImportWallet p =>
      simp only [handle_commands] at hc
      split at hc
      · simp at hc
      · split at hc
        · simp at hc
        · rw [querySilent_mem hc]; trivial
    | GetWalletInfo => rw [query_mem hc]; trivial
    | GetServerInfo => rw [query_mem hc]; trivial
    | Open s ib f =>
      rcases send_request_calls_mem hc with ⟨fr, rfl⟩
      intro r hr
      simp [Option.toList] at hr
      subst hr
      exact normalize_space_idem s
    | Bid s a f co =>
      rcases send_request_calls_mem hc with ⟨fr, rfl⟩
      intro r hr
      simp [Option.toList] at hr
      subst hr
      exact normalize_space_idem s
    | Register s addr f =>
      rcases send_request_calls_mem hc with ⟨fr, rfl⟩
      intro r hr
      simp [Option.toList] at hr
      subst hr
      exact normalize_space_idem s
    | GetSpace s =>
      simp only [handle_commands] at hc
      split at hc
      · simp at hc
      · rw [query_mem hc]; trivial
    | Transfer spaces dest f =>
      rcases send_request_calls_mem hc with ⟨fr, rfl⟩
      intro r hr
      simp [Option.toList] at hr
      subst hr
      intro n hn
      rcases List.mem_map.1 hn with ⟨x, _, rfl⟩
      exact normalize_space_idem x
    | EstimateBid t =>
      simp only [handle_commands] at hc
      split at hc <;> (simp at hc; subst hc; trivial)
    | SendCoins a dest f =>
      rcases send_request_calls_mem hc with ⟨fr, rfl⟩
      intro r hr
      simp [Option.toList] at hr
      subst hr
      trivial
    | Balance => rw [query_mem hc]; trivial
    | CreateBidOuts pairs f =>
      rcases send_request_calls_mem hc with ⟨fr, rfl⟩
      intro r hr
      simp [Option.toList] at hr
    | BumpFee txid f =>
      simp only [handle_commands] at hc
      split at hc
      · simp at hc
      · rw [query_mem hc]; trivial
    | GetSpaceOut o => rw [query_mem hc]; trivial
    | GetRollout t => rw [query_mem hc]; trivial
    | SetRawFallback s data f =>
      simp only [handle_commands] at hc
      split at hc
      · simp at hc
      · rcases send_request_calls_mem hc with ⟨fr, rfl⟩
        intro r hr
        simp [Option.toList] at hr
        subst hr
        intro n hn
        simp at hn
        subst hn
        exact normalize_space_idem s
    | ListTransactions c sk => rw [query_mem hc]; trivial
    | ListSpaces => rw [query_mem hc]; trivial
    | ListBidOuts => rw [query_mem hc]; trivial
    | ListUnspent => rw [query_mem hc]; trivial
    | GetSpaceAddress => rw [query_mem hc]; trivial
    | GetCoinAddress => rw [query_mem hc]; trivial
    | ForceSpend o f =>
      simp only [handle_commands] at hc
      split at hc
      · simp at hc
      · rw [query_mem hc]; trivial
    | HashSpace s =>
      simp only [handle_commands] at hc
      split at hc <;> simp at hc
  · intro cli env r b f co call hc
    exact send_request_calls_mem hc

/-- Claim C5 witness: the `open foo` submission satisfies the normalization
predicate at a concrete call. -/
theorem operation_names_normalized_witness :
    callNamesNormalized (.walletSendRequest (strBytes "default")
      { bidouts := none,
        requests := [.Open { name := strBytes "@foo", amount := 1000 }],
        fee_rate := none, dust := none, force := false,
        confirmed_only := false, skip_tx_check := false }) :=
  operation_names_normalized.1 cliFixture envFixture
    (.Open (strBytes "foo") 1000 none) _ (by decide)

/-- Claim C7: a `setrawfallback` payload that fails hex decoding produces a
local `Custom` error (classified LocalValidation) carrying the decoder's
message, with zero network calls; a payload that decodes successfully puts
the decoded bytes into the `Execute` operation's payload of the single
submission. -/
theorem setrawfallback_hex_validation (cli : SpaceCli) (env : Env)
    (space data : Str) (f : Option Nat) :
    (∀ e, hexDecode data = .error e →
       handle_commands cli env (.SetRawFallback space data f)
         = ⟨.err (.Custom (strBytes "Could not hex decode data: "
             ++ renderHexError e)), [], []⟩
       ∧ classify cli (.Custom (strBytes "Could not hex decode data: "
             ++ renderHexError e))
           = .LocalValidation (strBytes "Could not hex decode data: "
               ++ renderHexError e))
    ∧ (∀ bs, hexDecode data = .ok bs → feeConvOk f = true →
       (handle_commands cli env (.SetRawFallback space data f)).calls
         = [.walletSendRequest cli.wallet
             { bidouts := none,
               requests := [.Execute
                 { context := [normalize_space space],
                   space_script := .createSetFallback bs }],
               fee_rate := feeConvVal f, dust := cli.dust,
               force := cli.force, confirmed_only := false,
               skip_tx_check := cli.skip_tx_check }]) := by
  constructor
  · intro e he
    constructor
    · simp only [handle_commands]
      rw [he]
    · rfl
  · intro bs hb hf
    simp only [handle_commands]
    rw [hb]
    rw [send_request_calls cli env _ none f false hf]
    rfl

/-- Claim C7 witness: the bad payload `zz` fails locally with the decoder's
message and no calls; the good payload `0aff` puts bytes `[0x0a, 0xff]`
into the Execute payload of one submission. -/
theorem setrawfallback_hex_validation_witness :
    (handle_commands cliFixture envFixture
        (.SetRawFallback (strBytes "foo") (strBytes "zz") none)
      = ⟨.err (.Custom (strBytes "Could not hex decode data: "
          ++ renderHexError (.InvalidHexCharacter 122 0))), [], []⟩)
    ∧ (handle_commands cliFixture envFixture
        (.SetRawFallback (strBytes "foo") (strBytes "0aff") none)).calls
      = [.walletSendRequest (strBytes "default")
          { bidouts := none,
            requests := [.Execute
              { context := [strBytes "@foo"],
                space_script := .createSetFallback [10, 255] }],
            fee_rate := none, dust := none, force := false,
            confirmed_only := false, skip_tx_check := false }] := by
  constructor
  · exact ((setrawfallback_hex_validation cliFixture envFixture
      (strBytes "foo") (strBytes "zz") none).1
        (.InvalidHexCharacter 122 0) rfl).1
  · have h := (setrawfallback_hex_validation cliFixture envFixture
      (strBytes "foo") (strBytes "0aff") none).2 [10, 255] rfl rfl
    rw [h]
    rfl

/-- Claim C9: `hashspace FOO` performs zero network calls and prints a
single line, the hex encoding of the SHA-256 digest of the DNS-encoded
normalized identifier (`@foo` encodes to `[3, 102, 111, 111]`); every
character of that line is a lowercase hex digit, and the whole run is
independent of the configuration and the remote, hence identical on
repeated invocations. -/
theorem hashspace_scenario (cli cli2 : SpaceCli) (env env2 : Env) :
    handle_commands cli env (.HashSpace (strBytes "FOO"))
      = ⟨.ok, [], [hexEncode (Sha256.hash [3, 102, 111, 111])]⟩
    ∧ normalize_space (strBytes "FOO") = strBytes "@foo"
    ∧ SLabel.fromStr (strBytes "@foo") = .ok [3, 102, 111, 111]
    ∧ (∀ c ∈ hexEncode (Sha256.hash [3, 102, 111, 111]), isLowerHexDigit c)
    ∧ handle_commands cli env (.HashSpace (strBytes "FOO"))
        = handle_commands cli2 env2 (.HashSpace (strBytes "FOO")) :=
  ⟨rfl, by decide, rfl, hexEncode_lower _, rfl⟩
